import Mathlib

/-!
Verification of the scope-aware error-accounting and message-routing core of
the `loggy` crate (src/src/lib.rs), as a shallow embedding.

The embedding models, faithfully to the Rust source:
  * the severity levels and the `enabled` check of `impl Log for Loggy`;
  * the record formatter `Loggy::format_message` / `Loggy::append_prefix`;
  * the emission and capture logic of `emit_message`, including the
    `FORCE_PANIC` one-shot flag set by `force_panic` and the per-thread
    `NAMED_SCOPE` cell;
  * the RAII scope pop of `impl Drop for Scope` (`scope_drop`);
  * the take-and-clear of the capture buffer performed by `do_assert_logs`;
  * the expected-text normalization `fix_expected`.

Thread-local and global mutable state is modelled by the explicit record
`LogState` threaded through the operations; a Rust `panic!` (abrupt
termination) is modelled by the `Outcome.panic` constructor carrying the
panic payload and the state at the moment of unwinding.

The external `unindent` helper (an external collaborator of the core) and
the `count_errors` counting region (absent from src/, only referenced by the
crate's tests) are modelled from the specification; their definitions say so
in their doc comments.
-/

/-- Severity levels of the external `log` facade (`log::Level`). -/
inductive Level where
  | error
  | warn
  | info
  | debug
  | trace
deriving DecidableEq

/-- Numeric rank of a level, as in the `log` crate where
`Error = 1 < Warn < Info < Debug < Trace = 5`; the max-level filter value
uses the same scale (`Off = 0`). -/
def rank : Level → Nat
  | Level.error => 1
  | Level.warn => 2
  | Level.info => 3
  | Level.debug => 4
  | Level.trace => 5

/-- Embeds `Loggy::enabled` (src/src/lib.rs:310-314): true if the severity is
Error, or Debug, or at most the configured max level. -/
def enabled (maxLevel : Nat) (lvl : Level) : Bool :=
  decide (lvl = Level.error ∨ lvl = Level.debug ∨ rank lvl ≤ maxLevel)

/-- Embeds `NamedScope` (src/src/lib.rs:221-227): a scope name and the number
of errors seen in the scope. -/
structure NamedScope where
  name : String
  errors : Nat
deriving DecidableEq

/-- The mutable state visible to the logging core: the thread-local
`NAMED_SCOPE` and `FORCE_PANIC` cells, the global `LOG_BUFFER` capture cell
(`none` means no capture is active), the text written so far to the real
error stream, and whether the thread is already unwinding
(`std::thread::panicking`). -/
structure LogState where
  scope : Option NamedScope
  forcePanic : Bool
  buffer : Option String
  stderrOut : String
  panicking : Bool
deriving DecidableEq

/-- Result of an operation that can abruptly terminate the thread: either a
normal continuation with the new state, or a panic carrying its payload
string and the state at the moment of unwinding. -/
inductive Outcome where
  | ok : LogState → Outcome
  | panic : String → LogState → Outcome
deriving DecidableEq

/-- Embeds the `Loggy` configuration struct (src/src/lib.rs:283-294): the
message prefix (field `prefix` in the source) and the show-time /
show-thread flags. -/
structure Loggy where
  pfx : String
  show_time : Bool
  show_thread : Bool
deriving DecidableEq

/-- A log record as consumed from the `log` facade: severity, the message
text already formatted by the macro layer (may contain embedded newlines),
the module path, and the source file and line (used only for Debug). -/
structure Record where
  level : Level
  text : String
  module_path : String
  file : String
  line : Nat
deriving DecidableEq

/-- The upper-case display spelling of a level (`record.level().to_string()`
in the source, via the `log` crate's `Display`). -/
def levelUpper : Level → String
  | Level.error => "ERROR"
  | Level.warn => "WARN"
  | Level.info => "INFO"
  | Level.debug => "DEBUG"
  | Level.trace => "TRACE"

/-- Models Rust `str::to_lowercase` on the ASCII level spellings. -/
def toLowerStr (s : String) : String := String.mk (s.data.map Char.toLower)

/-- Split a character list at every newline; the pieces contain no newline
and there is one more piece than there are newlines.  This is the semantics
of Rust `str::split('\n')`. -/
def splitNl : List Char → List (List Char)
  | [] => [[]]
  | c :: rest =>
    if c = '\n' then [] :: splitNl rest
    else
      match splitNl rest with
      | [] => [[c]]
      | l :: ls => (c :: l) :: ls

/-- The logical lines of a message text: its newline-separated segments. -/
def logicalLines (text : String) : List String :=
  (splitNl text.data).map String.mk

/-- The semantics of Rust `str::lines()` (as used on the `\n`-terminated
message built by `format_message`): split at newlines and drop the final
empty segment produced by a trailing newline. -/
def rustLines (s : String) : List String :=
  if s.data = [] then []
  else if s.data.getLast? = some '\n' then ((splitNl s.data).dropLast).map String.mk
  else (splitNl s.data).map String.mk

/-- Embeds `Loggy::append_prefix` (src/src/lib.rs:367-412), building the
per-line prefix left to right: the global prefix, the optional bracketed
thread tag, a colon, the optional time, the bracketed severity spelling, the
`file:line:` segment for Debug records, and the resolved scope name (the
active named scope if any, else the record's module path), omitted entirely
when that name is empty. -/
def append_pfx (lg : Loggy) (tag : String) (now : String) (level : String)
    (r : Record) (scope : Option String) : String :=
  let m := lg.pfx
  let m := if lg.show_thread then m ++ "[" ++ tag ++ "]" else m
  let m := m ++ ":"
  let m := if lg.show_time then m ++ " " ++ now else m
  let m := m ++ " [" ++ level ++ "]"
  let m := if r.level = Level.debug then m ++ " " ++ r.file ++ ":" ++ toString r.line ++ ":" else m
  let sc := match scope with
    | none => r.module_path
    | some n => n
  if sc = "" then m else m ++ " " ++ sc ++ ":"

/-- The per-line loop of `Loggy::format_message` (src/src/lib.rs:356-362):
the running `level` string is lowered in place before rendering every line
whose index is positive, so the first line keeps the upper-case spelling and
all later lines use the lowered one. -/
def formatAux (render : String → String → String) : String → Nat → List String → String
  | _, _, [] => ""
  | level, idx, line :: rest =>
    if 0 < idx then
      render (toLowerStr level) line ++ formatAux render (toLowerStr level) (idx + 1) rest
    else
      render level line ++ formatAux render level (idx + 1) rest

/-- Embeds `Loggy::format_message` (src/src/lib.rs:339-365): append a newline
to the record text (`writeln!`), then render each resulting line as
`<prefix> <line>\n`, starting from the upper-case severity spelling. -/
def format_message (lg : Loggy) (now tag : String) (scope : Option String) (r : Record) : String :=
  formatAux
    (fun lvl line =>
      append_pfx lg tag (if lg.show_time then now else "") lvl r scope ++ " " ++ line ++ "\n")
    (levelUpper r.level) 0 (rustLines (r.text ++ "\n"))

/-- Concatenation of a list of strings, in order. -/
def concatStrs : List String → String
  | [] => ""
  | s :: rest => s ++ concatStrs rest

/-- Rendering of a record as a list of physical lines, written following the
spec's words (spec 4.2 / C9): one physical line per logical line of the
message text, each with the identical prefix, the first line with the
upper-case severity spelling and every later line with the lower-case one. -/
def specRendering (lg : Loggy) (now tag : String) (scope : Option String) (r : Record) : List String :=
  match logicalLines r.text with
  | [] => []
  | first :: rest =>
    (append_pfx lg tag (if lg.show_time then now else "") (levelUpper r.level) r scope
        ++ " " ++ first ++ "\n") ::
      rest.map (fun line =>
        append_pfx lg tag (if lg.show_time then now else "") (toLowerStr (levelUpper r.level)) r scope
          ++ " " ++ line ++ "\n")

/-- The name of the active named scope, if any (`NAMED_SCOPE` lookup). -/
def scopeName (s : LogState) : Option String := s.scope.map NamedScope.name

/-- Embeds `force_panic` (src/src/lib.rs:432-436): set the thread-local
one-shot flag forcing the next error-level message to be emitted as a
panic. -/
def force_panic (s : LogState) : LogState := { s with forcePanic := true }

/-- Embeds `emit_message` (src/src/lib.rs:439-473).  Debug messages go
straight to the real error stream.  Error messages first consume the
`FORCE_PANIC` flag (panicking with the rendered message if it was set), then
are tallied into the active named scope, or panic with a fixed diagnostic
when no scope is active.  Surviving messages are delivered to the capture
buffer when one is installed (mirrored to the error stream when the mirror
flag is set), else to the error stream. -/
def emit_message (pfx : String) (mirror : Bool) (level : Level) (message : String)
    (s : LogState) : Outcome :=
  if level = Level.debug then
    Outcome.ok { s with stderrOut := s.stderrOut ++ message }
  else
    match
      (if level = Level.error then
        (if s.forcePanic then
          Outcome.panic message { s with forcePanic := false }
        else
          match s.scope with
          | some sc => Outcome.ok { s with scope := some { sc with errors := sc.errors + 1 } }
          | none => Outcome.panic (pfx ++ ": error! called outside a named scope") s)
      else Outcome.ok s)
    with
    | Outcome.panic p s1 => Outcome.panic p s1
    | Outcome.ok s1 =>
      match s1.buffer with
      | none => Outcome.ok { s1 with stderrOut := s1.stderrOut ++ message }
      | some b =>
        if mirror then
          Outcome.ok { s1 with stderrOut := s1.stderrOut ++ message, buffer := some (b ++ message) }
        else
          Outcome.ok { s1 with buffer := some (b ++ message) }

/-- Embeds `Loggy::log` (src/src/lib.rs:316-320): filter by `enabled`, then
format and emit. -/
def Loggy.log (lg : Loggy) (mirror : Bool) (maxLevel : Nat) (now tag : String)
    (r : Record) (s : LogState) : Outcome :=
  if enabled maxLevel r.level = true then
    emit_message lg.pfx mirror r.level (format_message lg now tag (scopeName s) r) s
  else Outcome.ok s

/-- Run a sequence of log calls on one thread, stopping at the first panic. -/
def logList (lg : Loggy) (mirror : Bool) (maxLevel : Nat) (now tag : String) :
    List Record → LogState → Outcome
  | [], s => Outcome.ok s
  | r :: rest, s =>
    match Loggy.log lg mirror maxLevel now tag r s with
    | Outcome.ok s1 => logList lg mirror maxLevel now tag rest s1
    | Outcome.panic p s1 => Outcome.panic p s1

/-- Embeds `Scope::new` (src/src/lib.rs:245-257): push a fresh scope with a
zero tally, returning the saved previous scope as the guard value. -/
def scope_new (name : String) (s : LogState) : Option NamedScope × LogState :=
  (s.scope, { s with scope := some { name := name, errors := 0 } })

/-- Embeds `impl Drop for Scope` (src/src/lib.rs:266-280): restore the saved
previous scope, then panic with the scope-failure message when the popped
scope saw errors and the thread is not already unwinding. -/
def scope_drop (pfx : String) (previous : Option NamedScope) (s : LogState) : Outcome :=
  match s.scope with
  | none => Outcome.panic "called `Option::unwrap()` on a `None` value" s
  | some current =>
    if 0 < current.errors ∧ s.panicking = false then
      Outcome.panic
        (pfx ++ ": [ERROR] " ++ current.name ++ ": failed with "
          ++ toString current.errors ++ " error(s)")
        { s with scope := previous }
    else Outcome.ok { s with scope := previous }

/-- Result of the take-and-clear on the capture buffer: the taken text and
the new state, or a panic when no buffer is installed. -/
inductive TakeResult where
  | ok : String → LogState → TakeResult
  | panic : String → LogState → TakeResult
deriving DecidableEq

/-- Embeds the take-and-clear performed by `do_assert_logs`
(src/src/lib.rs:623): `LOG_BUFFER.lock().take().unwrap()` removes the whole
buffer cell, leaving `none`; calling it with no buffer installed is the
`unwrap` panic. -/
def take_and_clear (s : LogState) : TakeResult :=
  match s.buffer with
  | some b => TakeResult.ok b { s with buffer := none }
  | none => TakeResult.panic "called `Option::unwrap()` on a `None` value" s

/-- Last character of a string, models Rust `str::ends_with(char)`. -/
def lastChar (s : String) : Option Char := s.data.getLast?

/-- First character of a string, models Rust `str::starts_with(char)`. -/
def headChar (s : String) : Option Char := s.data.head?

/-- Models `expected.strip_prefix('\n').unwrap_or(&expected)`
(src/src/lib.rs:662): drop one leading newline when there is one. -/
def dropLeadNl (s : String) : String :=
  if headChar s == some '\n' then String.mk s.data.tail else s

/-- Embeds `fix_expected` (src/src/lib.rs:659-668), parametrized by the
external dedenting helper: remember whether the original text ended with a
newline or a space, dedent, drop one leading newline, then adjust the tail
by the (ends-with-newline, needs-trailing-newline) table of the source. -/
def fix_expected (dedent : String → String) (expected : String) : String :=
  let needsNl := lastChar expected == some '\n' || lastChar expected == some ' '
  let e2 := dropLeadNl (dedent expected)
  match lastChar e2 == some '\n', needsNl with
  | true, false => String.mk e2.data.dropLast
  | false, true => e2 ++ "\n"
  | _, _ => e2

/-- Normalization following the spec's words, amended where the code
differs: steps 1 and 2 as in the spec; for step 3, a needed trailing newline
is appended only when the dedented text lacks one (extra trailing newlines
are preserved), and an unneeded trailing newline is stripped once. -/
def fixExpectedSpec (dedent : String → String) (expected : String) : String :=
  let e2 := dropLeadNl (dedent expected)
  if lastChar expected == some '\n' || lastChar expected == some ' ' then
    (if lastChar e2 == some '\n' then e2 else e2 ++ "\n")
  else
    (if lastChar e2 == some '\n' then String.mk e2.data.dropLast else e2)

/-- Number of leading space characters of a line. -/
def countLeadingSpaces : List Char → Nat
  | ' ' :: rest => countLeadingSpaces rest + 1
  | _ => 0

/-- The common leading indentation of the non-empty lines; lines consisting
only of whitespace do not take part in the minimum (as in the external
helper, whose whitespace-only lines may carry fewer spaces). -/
def minIndent (lines : List (List Char)) : Nat :=
  match (lines.filter (fun l => !l.all (fun c => c == ' ' || c == '\t'))).map
      countLeadingSpaces with
  | [] => 0
  | x :: xs => xs.foldl Nat.min x

/-- Join lines back with newlines between them. -/
def listJoinNl : List (List Char) → List Char
  | [] => []
  | [l] => l
  | l :: rest => l ++ '\n' :: listJoinNl rest

/-- Modelled from the spec: the external text-unindentation helper
(`unindent`, spec section 6 step 1), which is an external collaborator of
the core and is not part of this repository — remove the common leading
indentation of the non-empty lines. -/
def dedentSpec (s : String) : String :=
  let lines := splitNl s.data
  String.mk (listJoinNl (lines.map (List.drop (minIndent lines))))

/-- Modelled from the spec: the per-thread error-counting state of the
counting region (spec sections 3 and 4.4) — the running error tally and the
is-counting flag.  The counting-region code itself is not under src/ (only
the crate's tests call `count_errors`). -/
structure CountState where
  tally : Nat
  counting : Bool
deriving DecidableEq

/-- Modelled from the spec: logging one counted Error increments the
thread's running error tally (spec section 4.4). -/
def logCountedError (s : CountState) : CountState := { s with tally := s.tally + 1 }

/-- Logging a counted Error exactly `n` times in sequence. -/
def logErrorsN : Nat → CountState → CountState
  | 0, s => s
  | n + 1, s => logErrorsN n (logCountedError s)

/-- Modelled from the spec: `count_errors(code)` (spec section 4.4) — save
the is-counting flag and a baseline equal to the running tally, set the flag,
run the code to completion, restore the flag, and return the tally after
minus the baseline together with the final state. -/
def count_errors (code : CountState → CountState) (s : CountState) : Nat × CountState :=
  let s1 := code { s with counting := true }
  (s1.tally - s.tally, { s1 with counting := s.counting })

/-- The force-panic flag left behind by an emission outcome. -/
def flag_of : Outcome → Bool
  | Outcome.ok s => s.forcePanic
  | Outcome.panic _ s => s.forcePanic

theorem data_append (a b : String) : (a ++ b).data = a.data ++ b.data := by
  cases a
  cases b
  rfl

theorem mk_append (xs ys : List Char) :
    (String.mk xs ++ String.mk ys) = String.mk (xs ++ ys) := rfl

theorem splitNl_ne_nil : ∀ xs : List Char, splitNl xs ≠ []
  | [] => by simp [splitNl]
  | c :: rest => by
    by_cases h : c = '\n'
    · simp [splitNl, h]
    · simp only [splitNl, if_neg h]
      rcases hs : splitNl rest with _ | ⟨l, ls⟩ <;> simp

theorem splitNl_concat (xs : List Char) :
    splitNl (xs ++ ['\n']) = splitNl xs ++ [[]] := by
  induction xs with
  | nil => simp [splitNl]
  | cons c rest ih =>
    by_cases h : c = '\n'
    · subst h
      simp [splitNl, ih]
    · rcases hs : splitNl rest with _ | ⟨l, ls⟩
      · exact absurd hs (splitNl_ne_nil rest)
      · simp only [List.cons_append, splitNl, if_neg h, ih, hs, List.append_eq]

theorem rustLines_concat (text : String) :
    rustLines (text ++ "\n") = logicalLines text := by
  have hd : (text ++ ("\n" : String)).data = text.data ++ ['\n'] := data_append text "\n"
  have h1 : text.data ++ ['\n'] ≠ [] := by simp
  have h2 : (text.data ++ ['\n']).getLast? = some '\n' := List.getLast?_concat _
  unfold rustLines logicalLines
  rw [hd, if_neg h1, if_pos h2, splitNl_concat, List.dropLast_concat]

theorem formatAux_const (render : String → String → String) (lvlL : String)
    (hid : toLowerStr lvlL = lvlL) (rest : List String) :
    ∀ idx : Nat, 0 < idx →
      formatAux render lvlL idx rest = concatStrs (rest.map (render lvlL)) := by
  induction rest with
  | nil =>
    intro idx hidx
    rfl
  | cons line rs ih =>
    intro idx hidx
    simp only [formatAux, if_pos hidx, hid, List.map, concatStrs]
    rw [ih (idx + 1) (Nat.succ_pos idx)]

theorem formatAux_head (render : String → String → String) (lvl : String)
    (hid : toLowerStr (toLowerStr lvl) = toLowerStr lvl) (rest : List String) :
    ∀ idx : Nat, 0 < idx →
      formatAux render lvl idx rest = concatStrs (rest.map (render (toLowerStr lvl))) := by
  intro idx hidx
  cases rest with
  | nil => rfl
  | cons line rs =>
    simp only [formatAux, if_pos hidx, List.map, concatStrs]
    rw [formatAux_const render (toLowerStr lvl) hid rs (idx + 1) (Nat.succ_pos idx)]

theorem levelLower_idem (lvl : Level) :
    toLowerStr (toLowerStr (levelUpper lvl)) = toLowerStr (levelUpper lvl) := by
  cases lvl <;> decide

theorem emit_capture (pfx : String) (mirror : Bool) (lvl : Level) (msg : String)
    (s : LogState) (b : String) (hb : s.buffer = some b)
    (h1 : lvl ≠ Level.error) (h2 : lvl ≠ Level.debug) :
    emit_message pfx mirror lvl msg s =
      Outcome.ok { s with buffer := some (b ++ msg),
                          stderrOut := if mirror then s.stderrOut ++ msg else s.stderrOut } := by
  unfold emit_message
  rw [if_neg h2, if_neg h1]
  simp only [hb]
  cases mirror <;> rfl

/-- Claim C1, counterexample to the claim as stated: an Error record handled
with no named scope active (hence certainly no counting region active) and
no forced panic pending does abruptly terminate, but the termination payload
is the fixed diagnostic `test: error! called outside a named scope`, not the
rendered text of the record. -/
theorem c1_counterexample :
    emit_message "test" false Level.error "test: [ERROR] test_log: boom\n"
        ⟨none, false, some "", "", false⟩ =
      Outcome.panic "test: error! called outside a named scope"
        ⟨none, false, some "", "", false⟩ ∧
    ("test: error! called outside a named scope" : String) ≠
      "test: [ERROR] test_log: boom\n" := by
  decide

/-- Claim C1, amended: an Error-severity record (which always passes the
enabled check) handled while no named scope is active on the calling thread
and no forced panic is pending is an abrupt-termination event — execution
does not continue past the log call — but the termination payload is the
fixed diagnostic `<prefix>: error! called outside a named scope` rather than
the rendered text. -/
theorem c1_amended (pfx msg : String) (mirror : Bool) (maxLevel : Nat) (s : LogState)
    (h1 : s.scope = none) (h2 : s.forcePanic = false) :
    enabled maxLevel Level.error = true ∧
    emit_message pfx mirror Level.error msg s =
      Outcome.panic (pfx ++ ": error! called outside a named scope") s := by
  constructor
  · rfl
  · unfold emit_message
    rw [if_neg (by decide : ¬ (Level.error = Level.debug))]
    simp only [h1, h2]
    rfl

/-- Witness for C1's amended theorem at a concrete state. -/
theorem c1_witness :
    ((⟨none, false, some "", "", false⟩ : LogState).scope = none ∧
      (⟨none, false, some "", "", false⟩ : LogState).forcePanic = false) ∧
    (enabled 0 Level.error = true ∧
      emit_message "app" false Level.error "app: [ERROR] m: oops\n"
          ⟨none, false, some "", "", false⟩ =
        Outcome.panic "app: error! called outside a named scope"
          ⟨none, false, some "", "", false⟩) := by
  refine ⟨⟨rfl, rfl⟩, ?_⟩
  have h := c1_amended "app" "app: [ERROR] m: oops\n" false 0
    ⟨none, false, some "", "", false⟩ rfl rfl
  exact ⟨h.1, h.2.trans (by decide)⟩

/-- Claim C2, counterexample to the claim as stated: popping an inner scope
that tallied 2 errors (on a thread that is already unwinding, so the pop
completes normally) restores the outer scope with its tally still 3 — the
inner tally is not folded into it, which would have given 3 + 2. -/
theorem c2_counterexample :
    scope_drop "test" (some ⟨"outer", 3⟩) ⟨some ⟨"inner", 2⟩, false, none, "", true⟩ =
      Outcome.ok ⟨some ⟨"outer", 3⟩, false, none, "", true⟩ ∧
    (3 : Nat) ≠ 3 + 2 := by
  decide

/-- Claim C2, amended: when the inner scope is popped, the saved previous
scope becomes the new top with its tally unchanged — the popped tally is
never folded into it.  A nonzero popped tally instead raises the
scope-failure panic when the thread is not already unwinding, and is simply
discarded otherwise (or when the stack becomes empty). -/
theorem c2_amended (pfx : String) (previous : Option NamedScope) (s : LogState)
    (cur : NamedScope) (h : s.scope = some cur) :
    scope_drop pfx previous s =
      (if 0 < cur.errors ∧ s.panicking = false then
        Outcome.panic
          (pfx ++ ": [ERROR] " ++ cur.name ++ ": failed with "
            ++ toString cur.errors ++ " error(s)")
          { s with scope := previous }
      else Outcome.ok { s with scope := previous }) := by
  unfold scope_drop
  rw [h]

/-- Witness for C2's amended theorem at a concrete state (thread already
unwinding, so the nonzero tally is discarded and the previous scope is
restored unchanged). -/
theorem c2_witness :
    (⟨some ⟨"i", 4⟩, false, none, "", true⟩ : LogState).scope = some ⟨"i", 4⟩ ∧
    scope_drop "p" (some ⟨"o", 5⟩) ⟨some ⟨"i", 4⟩, false, none, "", true⟩ =
      Outcome.ok ⟨some ⟨"o", 5⟩, false, none, "", true⟩ := by
  refine ⟨rfl, ?_⟩
  have h := c2_amended "p" (some ⟨"o", 5⟩) ⟨some ⟨"i", 4⟩, false, none, "", true⟩ ⟨"i", 4⟩ rfl
  exact h.trans (by decide)

/-- Claim C4 (confirmed): releasing a scope guard that tallied N errors
raises, when N is positive and the thread is not already unwinding, an
abrupt termination whose message is exactly
`<prefix>: [ERROR] <scope-name>: failed with <N> error(s)`; when N is zero
the release raises nothing and just restores the previous scope. -/
theorem c4_scope_rollup (pfx : String) (previous : Option NamedScope) (s : LogState)
    (cur : NamedScope) (h : s.scope = some cur) :
    (0 < cur.errors → s.panicking = false →
      scope_drop pfx previous s =
        Outcome.panic
          (pfx ++ ": [ERROR] " ++ cur.name ++ ": failed with "
            ++ toString cur.errors ++ " error(s)")
          { s with scope := previous }) ∧
    (cur.errors = 0 →
      scope_drop pfx previous s = Outcome.ok { s with scope := previous }) := by
  constructor
  · intro hpos hpan
    unfold scope_drop
    rw [h]
    exact if_pos ⟨hpos, hpan⟩
  · intro hzero
    unfold scope_drop
    rw [h]
    refine if_neg ?_
    simp [hzero]

/-- Witness for C4 at a concrete state: a scope named `work` that tallied 2
errors panics with the exact scope-failure message on release. -/
theorem c4_witness :
    (⟨some ⟨"work", 2⟩, false, none, "", false⟩ : LogState).scope = some ⟨"work", 2⟩ ∧
    scope_drop "test" none ⟨some ⟨"work", 2⟩, false, none, "", false⟩ =
      Outcome.panic "test: [ERROR] work: failed with 2 error(s)"
        ⟨none, false, none, "", false⟩ := by
  refine ⟨rfl, ?_⟩
  have h := (c4_scope_rollup "test" none ⟨some ⟨"work", 2⟩, false, none, "", false⟩
    ⟨"work", 2⟩ rfl).1 (by decide) rfl
  exact h.trans (by decide)

/-- Claim C6, counterexample to the claim as stated: a first take-and-clear
returns the buffered text and removes the buffer cell, so the immediately
following take-and-clear does not yield an empty result — it panics on the
`unwrap` of the missing buffer. -/
theorem c6_counterexample :
    take_and_clear ⟨none, false, some "once", "", false⟩ =
      TakeResult.ok "once" ⟨none, false, none, "", false⟩ ∧
    take_and_clear ⟨none, false, none, "", false⟩ =
      TakeResult.panic "called `Option::unwrap()` on a `None` value"
        ⟨none, false, none, "", false⟩ := by
  decide

/-- Claim C6, amended: the take-and-clear reads the buffer's entire contents
but removes the buffer cell itself (capture becomes inactive) rather than
leaving an empty buffer, so a second take-and-clear with no intervening log
calls panics on the missing buffer instead of yielding an empty result. -/
theorem c6_amended (s : LogState) (b : String) (hb : s.buffer = some b) :
    take_and_clear s = TakeResult.ok b { s with buffer := none } ∧
    take_and_clear { s with buffer := none } =
      TakeResult.panic "called `Option::unwrap()` on a `None` value"
        { s with buffer := none } := by
  constructor
  · unfold take_and_clear
    rw [hb]
  · rfl

/-- Witness for C6's amended theorem at a concrete state. -/
theorem c6_witness :
    (⟨none, false, some "text", "", false⟩ : LogState).buffer = some "text" ∧
    (take_and_clear ⟨none, false, some "text", "", false⟩ =
        TakeResult.ok "text" ⟨none, false, none, "", false⟩ ∧
      take_and_clear ⟨none, false, none, "", false⟩ =
        TakeResult.panic "called `Option::unwrap()` on a `None` value"
          ⟨none, false, none, "", false⟩) := by
  refine ⟨rfl, ?_⟩
  have h := c6_amended ⟨none, false, some "text", "", false⟩ "text" rfl
  exact ⟨h.1.trans (by decide), h.2.trans (by decide)⟩

/-- Claim C10 (confirmed): `force_panic` sets the one-shot thread-local
flag; the next Error-severity message emitted on the thread panics with the
rendered message as payload, and the resulting state differs from the
original only in the flag being reset to false — no scope tally is
incremented and nothing reaches the capture buffer or the error stream.
Messages of every other severity leave the flag set. -/
theorem c10_force_panic (pfx msg : String) (mirror : Bool) (s : LogState) :
    (force_panic s).forcePanic = true ∧
    emit_message pfx mirror Level.error msg (force_panic s) =
      Outcome.panic msg { s with forcePanic := false } ∧
    flag_of (emit_message pfx mirror Level.info msg (force_panic s)) = true ∧
    flag_of (emit_message pfx mirror Level.warn msg (force_panic s)) = true ∧
    flag_of (emit_message pfx mirror Level.trace msg (force_panic s)) = true ∧
    flag_of (emit_message pfx mirror Level.debug msg (force_panic s)) = true := by
  refine ⟨rfl, rfl, ?_, ?_, ?_, rfl⟩ <;>
  · unfold emit_message force_panic
    rcases hb : s.buffer with _ | b <;> cases mirror <;> simp [flag_of, hb]

/-- Claim C8 (confirmed): a Debug-severity log call always passes the
enabled check, writes its rendered text directly to the real error stream,
and leaves the capture buffer untouched whatever its state. -/
theorem c8_debug (lg : Loggy) (mirror : Bool) (maxLevel : Nat) (now tag : String)
    (r : Record) (s : LogState) (h : r.level = Level.debug) :
    Loggy.log lg mirror maxLevel now tag r s =
      Outcome.ok
        { s with stderrOut := s.stderrOut ++ format_message lg now tag (scopeName s) r } ∧
    ({ s with stderrOut := s.stderrOut ++ format_message lg now tag (scopeName s) r }
        : LogState).buffer = s.buffer := by
  have he : enabled maxLevel r.level = true := by rw [h]; rfl
  constructor
  · unfold Loggy.log
    rw [if_pos he]
    unfold emit_message
    rw [h]
    rfl
  · rfl

/-- Witness for C8 at a concrete debug record and a state with an active
capture buffer: the buffer keeps its old contents and the rendered line goes
to the error stream. -/
theorem c8_witness :
    (⟨Level.debug, "dbg", "m", "f.rs", 3⟩ : Record).level = Level.debug ∧
    Loggy.log ⟨"test", false, false⟩ false 5 "" "" ⟨Level.debug, "dbg", "m", "f.rs", 3⟩
        ⟨none, false, some "keep", "", false⟩ =
      Outcome.ok ⟨none, false, some "keep", "test: [DEBUG] f.rs:3: m: dbg\n", false⟩ := by
  refine ⟨rfl, ?_⟩
  have h := (c8_debug ⟨"test", false, false⟩ false 5 "" "" ⟨Level.debug, "dbg", "m", "f.rs", 3⟩
    ⟨none, false, some "keep", "", false⟩ rfl).1
  exact h.trans (by decide)

theorem logErrorsN_spec (n : Nat) :
    ∀ s : CountState,
      (logErrorsN n s).tally = s.tally + n ∧ (logErrorsN n s).counting = s.counting := by
  induction n with
  | zero =>
    intro s
    exact ⟨rfl, rfl⟩
  | succ m ih =>
    intro s
    have h := ih (logCountedError s)
    have ht : (logCountedError s).tally = s.tally + 1 := rfl
    have hc : (logCountedError s).counting = s.counting := rfl
    unfold logErrorsN
    constructor
    · rw [h.1, ht]
      omega
    · rw [h.2, hc]

/-- Claim C3 (confirmed against the spec model): `count_errors(code)` saves
the tally baseline and the counting flag, runs the code with the flag set,
restores the flag, and returns the tally delta; logging a counted Error
exactly N times inside one region returns exactly N and raises the thread's
running tally by exactly N. -/
theorem c3_count (n : Nat) (s : CountState) :
    (count_errors (logErrorsN n) s).1 = n ∧
    (count_errors (logErrorsN n) s).2.tally = s.tally + n ∧
    (count_errors (logErrorsN n) s).2.counting = s.counting := by
  have h := logErrorsN_spec n { s with counting := true }
  unfold count_errors
  refine ⟨?_, ?_, rfl⟩
  · simp only [h.1]
    omega
  · simp only [h.1]

/-- Claim C7, counterexample to the claim as stated: for the expected text
`"a\n\n\n"` (which ends with a newline, so step 3 of the claim demands
exactly one trailing newline) the normalization returns the text unchanged,
and the result ends with more than one newline — its last two characters are
both newlines. -/
theorem c7_counterexample :
    lastChar ("a\n\n\n" : String) = some '\n' ∧
    fix_expected dedentSpec "a\n\n\n" = "a\n\n\n" ∧
    lastChar (fix_expected dedentSpec "a\n\n\n") = some '\n' ∧
    lastChar (String.mk (fix_expected dedentSpec "a\n\n\n").data.dropLast) = some '\n' := by
  decide

/-- Claim C7, amended: the normalization (1) dedents, (2) drops a single
leading newline when the dedented text starts with one, and (3) when the
original pre-dedent text ended with a newline or a trailing space it makes
the result end with a trailing newline by appending one only if the dedented
text lacks one (extra trailing newlines are preserved), and otherwise strips
a single trailing newline when one is present.  Stated as: `fix_expected`
coincides with the spec-side normalization for every dedent helper. -/
theorem c7_amended (dedent : String → String) (expected : String) :
    fix_expected dedent expected = fixExpectedSpec dedent expected := by
  rcases h1 : (lastChar (dropLeadNl (dedent expected)) == some '\n') <;>
    rcases h2 : (lastChar expected == some '\n' || lastChar expected == some ' ') <;>
      simp [fix_expected, fixExpectedSpec, h1, h2]

/-- Claim C9 (confirmed): rendering a record whose message text has k
logical lines produces exactly the concatenation of k physical lines, each
built with the identical prefix, the first line with the upper-case severity
spelling and every later line with the lower-case spelling. -/
theorem c9_format (lg : Loggy) (now tag : String) (scope : Option String) (r : Record) :
    format_message lg now tag scope r = concatStrs (specRendering lg now tag scope r) ∧
    (specRendering lg now tag scope r).length = (logicalLines r.text).length := by
  have hl := rustLines_concat r.text
  constructor
  · unfold format_message specRendering
    rw [hl]
    rcases hcase : logicalLines r.text with _ | ⟨first, rest⟩
    · rfl
    · simp only [formatAux, if_neg (Nat.lt_irrefl 0)]
      rw [formatAux_head _ _ (levelLower_idem r.level) rest 1 Nat.one_pos]
      rfl
  · rcases hcase : logicalLines r.text with _ | ⟨first, rest⟩ <;>
      simp [specRendering, hcase]

/-- Claim C5 (confirmed): for every sequence of Info- and Warn-severity log
calls made on one thread while capturing is active (and passing the enabled
check, as they always do under the harness's Trace max level), the final
captured buffer equals the prior contents followed by the concatenation, in
call order, of the formatter's rendering of each call. -/
theorem c5_capture_order (lg : Loggy) (mirror : Bool) (maxLevel : Nat) (now tag : String)
    (rs : List Record) :
    ∀ (s : LogState) (b0 : String), s.buffer = some b0 →
      (∀ r ∈ rs, (r.level = Level.info ∨ r.level = Level.warn) ∧
        enabled maxLevel r.level = true) →
      ∃ s', logList lg mirror maxLevel now tag rs s = Outcome.ok s' ∧
        s'.buffer =
          some (b0 ++ concatStrs
            (rs.map (fun r => format_message lg now tag (scopeName s) r))) := by
  induction rs with
  | nil =>
    intro s b0 hb _
    refine ⟨s, rfl, ?_⟩
    rw [hb]
    simp only [List.map_nil, concatStrs, String.append_empty]
  | cons r rest ih =>
    intro s b0 hb hall
    obtain ⟨⟨hlvl, hen⟩, hrest⟩ := List.forall_mem_cons.mp hall
    have hne : r.level ≠ Level.error := by
      rcases hlvl with h | h <;> rw [h] <;> decide
    have hnd : r.level ≠ Level.debug := by
      rcases hlvl with h | h <;> rw [h] <;> decide
    have hstep := emit_capture lg.pfx mirror r.level
      (format_message lg now tag (scopeName s) r) s b0 hb hne hnd
    unfold logList Loggy.log
    rw [if_pos hen, hstep]
    obtain ⟨s', hrun, hbuf⟩ := ih
      { s with buffer := some (b0 ++ format_message lg now tag (scopeName s) r),
               stderrOut := if mirror then
                   s.stderrOut ++ format_message lg now tag (scopeName s) r
                 else s.stderrOut }
      (b0 ++ format_message lg now tag (scopeName s) r) rfl hrest
    refine ⟨s', hrun, ?_⟩
    exact hbuf.trans (congrArg some (String.append_assoc b0 _ _))

/-- Witness for C5 at the spec's concrete scenario: prefix `test`, no time,
no thread tag, an `info "simple"` call followed by a `warn "format 0"` call
from module `test_log` under an active empty capture buffer. -/
theorem c5_witness :
    ((⟨none, false, some "", "", false⟩ : LogState).buffer = some "" ∧
      (∀ r ∈ [(⟨Level.info, "simple", "test_log", "", 0⟩ : Record),
              ⟨Level.warn, "format 0", "test_log", "", 0⟩],
        (r.level = Level.info ∨ r.level = Level.warn) ∧ enabled 5 r.level = true)) ∧
    (∃ s', logList ⟨"test", false, false⟩ false 5 "" ""
        [⟨Level.info, "simple", "test_log", "", 0⟩,
         ⟨Level.warn, "format 0", "test_log", "", 0⟩]
        ⟨none, false, some "", "", false⟩ = Outcome.ok s' ∧
      s'.buffer =
        some ("" ++ concatStrs
          ([(⟨Level.info, "simple", "test_log", "", 0⟩ : Record),
            ⟨Level.warn, "format 0", "test_log", "", 0⟩].map
            (fun r => format_message ⟨"test", false, false⟩ "" ""
              (scopeName ⟨none, false, some "", "", false⟩) r)))) := by
  refine ⟨⟨rfl, by decide⟩, ?_⟩
  exact c5_capture_order ⟨"test", false, false⟩ false 5 "" ""
    [⟨Level.info, "simple", "test_log", "", 0⟩,
     ⟨Level.warn, "format 0", "test_log", "", 0⟩]
    ⟨none, false, some "", "", false⟩ "" rfl (by decide)
